import Mathlib

/-!
Verification development for the jQuery styledSelect plugin
(src/jquery.styledSelect.src.js, version 2.0.1).

The full-replacement widget renders the native select's children as a
`styled_select_options_container` div holding `div.option` elements, either
top level or nested inside `div.optgroup` elements (each optgroup also gets a
prepended `optgroup_label` div, which is not an option).  The definitions
below embed, from the source:

* the extracted option/group structure (`Entry`) and the document-order list
  of option divs (`flatten`), as produced by `generateOptions`;
* the jQuery traversal cascades used for DOWN/UP keys in
  `simulateSelectBoxEvent` (`navDown`, `navUp`);
* the widget instance state (`Widget`) and the handlers
  `setCurrentSelectedTextAndValue`, `triggerIntermediaryChange`,
  `triggerValueChange`, `undoIntermediateChanges`, `simulateSelectBoxEvent`
  (split by event type into `keydown` and the click/focusout cases of
  `stepEv`);
* the plugin entry point `$.fn.styledSelectBox` (`styledSelectBoxCall`) and
  the shared window-resize registration logic of `initStyledSelect`
  (`initFullReplacement`, `resizeOptions`).
-/

namespace StyledSelect

/-- One replacement `div.option` element: its `value` attribute and its inner
html (the option's display text, possibly containing markup). -/
structure Opt where
  value : String
  text : String
deriving DecidableEq

/-- One child of the options container produced by `generateOptions`: either a
top-level `div.option`, or a `div.optgroup` (label attribute plus member
option divs; the prepended `optgroup_label` div is not a `div.option`). -/
inductive Entry where
  | opt : Opt → Entry
  | group : String → List Opt → Entry
deriving DecidableEq

/-- Document-order list of all `div.option` elements, i.e. what
`replacement_options_div.find('div.option')` returns. -/
def flatten : List Entry → List Opt
  | [] => []
  | .opt o :: rest => o :: flatten rest
  | .group _ ms :: rest => ms ++ flatten rest

/-- Every optgroup in the container holds at least one option div. -/
def noEmptyGroups (entries : List Entry) : Bool :=
  entries.all fun e =>
    match e with
    | .opt _ => true
    | .group _ ms => !ms.isEmpty

/-- Position of one option div in the container: either the `i`-th child of
the container (a top-level option), or the `j`-th member option of the group
that is the `i`-th child of the container. -/
inductive Pos where
  | top : Nat → Pos
  | inGroup : Nat → Nat → Pos
deriving DecidableEq

/-- Reindex a position when one entry is prepended to the container. -/
def shiftPos : Pos → Pos
  | .top i => .top (i + 1)
  | .inGroup i j => .inGroup (i + 1) j

/-- Position of the `k`-th option div in document order, if it exists. -/
def posOf : List Entry → Nat → Option Pos
  | [], _ => none
  | .opt _ :: _, 0 => some (.top 0)
  | .opt _ :: rest, k + 1 => (posOf rest k).map shiftPos
  | .group _ ms :: rest, k =>
      if k < ms.length then some (.inGroup 0 k)
      else (posOf rest (k - ms.length)).map shiftPos

/-- The option div at a given position, if the position is valid. -/
def optAtPos (entries : List Entry) : Pos → Option Opt
  | .top i =>
      match entries.get? i with
      | some (.opt o) => some o
      | _ => none
  | .inGroup i j =>
      match entries.get? i with
      | some (.group _ ms) => ms.get? j
      | _ => none

/-- Target of a DOWN key press from a given option position, mirroring the
jQuery cascade in `simulateSelectBoxEvent`:
`next('div.option')`, then `next('div.optgroup').find('div.option').first()`,
then `parent('div.optgroup').next('div.optgroup').find('div.option').first()`,
then `parent('div.optgroup').next('div.option')`.  For a top-level option the
`parent('div.optgroup')` steps are empty; inside a group the sibling of an
option is never an optgroup. -/
def navDown (entries : List Entry) : Pos → Option Pos
  | .top i =>
      match entries.get? (i + 1) with
      | some (.opt _) => some (.top (i + 1))
      | some (.group _ ms) => if ms.isEmpty then none else some (.inGroup (i + 1) 0)
      | none => none
  | .inGroup i j =>
      match entries.get? i with
      | some (.group _ ms) =>
          if j + 1 < ms.length then some (.inGroup i (j + 1))
          else
            match entries.get? (i + 1) with
            | some (.group _ ms') => if ms'.isEmpty then none else some (.inGroup (i + 1) 0)
            | some (.opt _) => some (.top (i + 1))
            | none => none
      | _ => none

/-- Target of an UP key press from a given option position, mirroring the
jQuery cascade in `simulateSelectBoxEvent`:
`prev('div.option')`, then `prev('div.optgroup').find('div.option').last()`,
then `parent('div.optgroup').prev('div.optgroup').find('div.option').last()`,
then `parent('div.optgroup').prev('div.option')`.  The prepended
`optgroup_label` div is the previous sibling of a group's first member and
matches neither selector. -/
def navUp (entries : List Entry) : Pos → Option Pos
  | .top i =>
      match i with
      | 0 => none
      | i' + 1 =>
          match entries.get? i' with
          | some (.opt _) => some (.top i')
          | some (.group _ ms) =>
              if ms.isEmpty then none else some (.inGroup i' (ms.length - 1))
          | none => none
  | .inGroup i j =>
      match entries.get? i with
      | some (.group _ _) =>
          match j with
          | j' + 1 => some (.inGroup i j')
          | 0 =>
              match i with
              | 0 => none
              | i' + 1 =>
                  match entries.get? i' with
                  | some (.group _ ms') =>
                      if ms'.isEmpty then none else some (.inGroup i' (ms'.length - 1))
                  | some (.opt _) => some (.top i')
                  | none => none
      | _ => none

/-- First index in a list of option divs whose `value` attribute equals `v`
(jQuery attribute-selector match, document order). -/
def findValueIdx (v : String) : List Opt → Option Nat
  | [] => none
  | o :: rest => if o.value = v then some 0 else (findValueIdx v rest).map Nat.succ

/-- JavaScript string coercion applied when `this.current_value` is
concatenated into the selector `div.option[value="..."]`; a null value
produces the literal selector text `null`. -/
def jsValueStr : Option String → String
  | none => "null"
  | some s => s

/-- Position of the first `div.option` matched by the attribute selector
`div.option[value="v"]` inside the options container. -/
def findPosByValue (entries : List Entry) (v : String) : Option Pos :=
  (findValueIdx v (flatten entries)).bind (posOf entries)

/-- State of one full-replacement widget instance.

* `entries` — children of the options container (mirrors the native select's
  optgroup/option children);
* `nativeSelected` — the native select's `selectedIndex` as an index into
  `flatten entries` (`none` for selectedIndex −1);
* `displayText` — inner html of the `styled_select_option_display` div;
* `current_value` — the instance field `this.current_value` (`none` models
  the initial JS null / an undefined attribute read);
* `anchorData` — the jQuery data item `current_option` on the options div;
  `some none` models a stored empty jQuery collection (stored when the
  value lookup matched nothing), which is still non-null for the
  `data(...) == null` checks;
* `candidateData` — the jQuery data item `new_option` (only ever stored
  non-empty, guarded by `new_option.length > 0`);
* `showClass` — whether the options container has the `show` class;
* `highlight` — value of the option div currently carrying the `highlight`
  class, if any. -/
structure Widget where
  entries : List Entry
  nativeSelected : Option Nat
  displayText : String
  current_value : Option String
  anchorData : Option (Option Opt)
  candidateData : Option Opt
  showClass : Bool
  highlight : Option String
deriving DecidableEq

/-- Handler for the native select's `change`/`keyup` events: copies the
selected option's text into the display div and its value into
`current_value`; does nothing when `selectedIndex` designates no option. -/
def setCurrentSelectedTextAndValue (w : Widget) : Widget :=
  match w.nativeSelected.bind fun i => (flatten w.entries).get? i with
  | some o => { w with displayText := o.text, current_value := some o.value }
  | none => w

/-- The method `triggerIntermediaryChange(current_option, new_option)`: when
`new_option` is non-empty, stores `current_option` as the `current_option`
data item if none is stored yet, stores `new_option` as the `new_option`
data item, re-highlights (only when the options div has the `show` class),
and copies the new option's html and value into the display div and
`current_value`. -/
def triggerIntermediaryChange (w : Widget) (current_option new_option : Option Opt) :
    Widget :=
  match new_option with
  | none => w
  | some no =>
      let w1 := if w.anchorData = none then { w with anchorData := some current_option } else w
      let w2 := { w1 with candidateData := some no }
      let w3 := if w2.showClass then { w2 with highlight := some no.value } else w2
      { w3 with displayText := no.text, current_value := some no.value }

/-- The method `triggerValueChange(new_value)`: sets the native select's value
(first option whose value matches, else selectedIndex −1), triggers its
`change` event (running `setCurrentSelectedTextAndValue`), then removes all
highlights, removes both data items, and removes the `show` class. -/
def triggerValueChange (w : Widget) (new_value : String) : Widget :=
  let w1 := setCurrentSelectedTextAndValue
    { w with nativeSelected := findValueIdx new_value (flatten w.entries) }
  { w1 with highlight := none, anchorData := none, candidateData := none,
            showClass := false }

/-- The method `undoIntermediateChanges()`: only when the options div has the
`show` class, restores the display html and `current_value` from the stored
`current_option` data item if present (a stored empty collection yields an
undefined html — a no-op setter — and an undefined value), then removes all
highlights, removes both data items, and removes the `show` class. -/
def undoIntermediateChanges (w : Widget) : Widget :=
  if w.showClass then
    let w1 :=
      match w.anchorData with
      | some (some o) => { w with displayText := o.text, current_value := some o.value }
      | some none => { w with current_value := none }
      | none => w
    { w1 with highlight := none, anchorData := none, candidateData := none,
              showClass := false }
  else w

/-- Key codes distinguished by the keydown branch of
`simulateSelectBoxEvent`; `other` covers every remaining key (the typeahead
search branch, which is an explicit stub). -/
inductive Key where
  | down
  | up
  | pageDown
  | pageUp
  | enter
  | tab
  | escape
  | other
deriving DecidableEq

/-- New option computed for a navigation key, from the position of the first
option matching `this.current_value`: DOWN/UP run the sibling cascades,
PAGE_DOWN/PAGE_UP take the last/first option of the whole container. -/
def navTarget (w : Widget) (k : Key) : Option Opt :=
  let cpos := findPosByValue w.entries (jsValueStr w.current_value)
  match k with
  | .down => (cpos.bind (navDown w.entries)).bind (optAtPos w.entries)
  | .up => (cpos.bind (navUp w.entries)).bind (optAtPos w.entries)
  | .pageDown => (flatten w.entries).getLast?
  | .pageUp => (flatten w.entries).head?
  | _ => none

/-- Keydown branch of `simulateSelectBoxEvent`: ESCAPE cancels, ENTER/TAB
commit the stored `new_option` when present (otherwise nothing), the four
navigation keys run `triggerIntermediaryChange` on the computed new option,
and any other key only hits the unimplemented search stub. -/
def keydown (w : Widget) (k : Key) : Widget :=
  let cpos := findPosByValue w.entries (jsValueStr w.current_value)
  let current_option := cpos.bind (optAtPos w.entries)
  match k with
  | .escape => undoIntermediateChanges w
  | .enter | .tab =>
      match w.candidateData with
      | some no => triggerValueChange w no.value
      | none => w
  | .down | .up | .pageDown | .pageUp =>
      triggerIntermediaryChange w current_option (navTarget w k)
  | .other => w

/-- Normalized events consumed by the full-replacement widget's handlers:
key presses, a click outside the options container, a click on an option div
(carrying that option), a click inside the container but not on an option
(for example a group label), and focusout (carrying whether the pointer is
hovering the options div). -/
inductive Ev where
  | key : Key → Ev
  | clickOutsideOptions
  | clickOption : Opt → Ev
  | clickInOptionsNonOption
  | focusout : Bool → Ev
deriving DecidableEq

/-- One step of `simulateSelectBoxEvent` (plus the option-click case): click
outside the options rows toggles the `show` class; click on an option commits
its value; focusout while not hovering the options div commits the stored
`new_option` if the list is shown, otherwise merely hides it. -/
def stepEv (w : Widget) : Ev → Widget
  | .key k => keydown w k
  | .clickOutsideOptions => { w with showClass := !w.showClass }
  | .clickOption o => triggerValueChange w o.value
  | .clickInOptionsNonOption => w
  | .focusout hovering =>
      if hovering then w
      else if w.showClass then
        match w.candidateData with
        | some no => triggerValueChange w no.value
        | none => { w with showClass := false }
      else w

/-- Fold a list of events through the handlers. -/
def runEvents (w : Widget) (evs : List Ev) : Widget :=
  evs.foldl stepEv w

/-- Widget state right after `initStyledSelect` finished: fresh replacement
divs, no data items, list hidden, then one call of
`setCurrentSelectedTextAndValue` to show the native selection. -/
def mkInitialWidget (entries : List Entry) (selIdx : Option Nat) : Widget :=
  setCurrentSelectedTextAndValue
    { entries := entries
      nativeSelected := selIdx
      displayText := ""
      current_value := none
      anchorData := none
      candidateData := none
      showClass := false
      highlight := none }

/-! ### Structural lemmas about the option container and the key cascades -/

theorem noEmptyGroups_tail {e : Entry} {rest : List Entry}
    (h : noEmptyGroups (e :: rest) = true) : noEmptyGroups rest = true := by
  simp only [noEmptyGroups, List.all_cons, Bool.and_eq_true] at h
  exact h.2

theorem noEmptyGroups_head_group {l : String} {ms : List Opt} {rest : List Entry}
    (h : noEmptyGroups (Entry.group l ms :: rest) = true) : ms.isEmpty = false := by
  simp only [noEmptyGroups, List.all_cons, Bool.and_eq_true] at h
  have h1 := h.1
  cases hms : ms.isEmpty
  · rfl
  · rw [hms] at h1; simp at h1

theorem length_pos_of_isEmpty_false {ms : List Opt} (h : ms.isEmpty = false) :
    0 < ms.length := by
  cases ms with
  | nil => simp [List.isEmpty] at h
  | cons x xs => simp

theorem optAtPos_shift (e : Entry) (rest : List Entry) (p : Pos) :
    optAtPos (e :: rest) (shiftPos p) = optAtPos rest p := by
  cases p <;> simp [optAtPos, shiftPos]

theorem navDown_shift (e : Entry) (rest : List Entry) (p : Pos) :
    navDown (e :: rest) (shiftPos p) = (navDown rest p).map shiftPos := by
  cases p with
  | top i =>
      simp only [navDown, shiftPos, List.get?_cons_succ]
      cases h : rest.get? (i + 1) with
      | none => simp
      | some e' =>
          cases e' with
          | opt o => simp [shiftPos]
          | group l ms => cases hms : ms.isEmpty <;> simp [hms, shiftPos]
  | inGroup i j =>
      simp only [navDown, shiftPos, List.get?_cons_succ]
      cases h1 : rest.get? i with
      | none => simp
      | some e1 =>
          cases e1 with
          | opt o => simp
          | group l ms =>
              by_cases hj : j + 1 < ms.length
              · simp [hj, shiftPos]
              · simp only [hj, if_false]
                cases h2 : rest.get? (i + 1) with
                | none => simp
                | some e2 =>
                    cases e2 with
                    | opt o => simp [shiftPos]
                    | group l' ms' => cases hms' : ms'.isEmpty <;> simp [hms', shiftPos]

theorem posOf_eq_none_iff (entries : List Entry) (k : Nat) :
    posOf entries k = none ↔ (flatten entries).length ≤ k := by
  induction entries generalizing k with
  | nil => simp [posOf, flatten]
  | cons e rest ih =>
      cases e with
      | opt o =>
          cases k with
          | zero => simp [posOf, flatten]
          | succ k' =>
              simp only [posOf, flatten, Option.map_eq_none', List.length_cons, ih]
              omega
      | group l ms =>
          by_cases hk : k < ms.length
          · simp only [posOf, hk, if_true, flatten, List.length_append]
            constructor
            · intro h; exact absurd h (by simp)
            · intro h; omega
          · simp only [posOf, hk, if_false, Option.map_eq_none', ih, flatten,
              List.length_append]
            omega

theorem posOf_isSome_of_get? {entries : List Entry} {k : Nat} {o : Opt}
    (h : (flatten entries).get? k = some o) : ∃ p, posOf entries k = some p := by
  have hk : k < (flatten entries).length := List.get?_eq_some.mp h |>.1
  cases hp : posOf entries k with
  | none => exact absurd ((posOf_eq_none_iff entries k).mp hp) (by omega)
  | some p => exact ⟨p, rfl⟩

theorem optAtPos_posOf {entries : List Entry} {k : Nat} {p : Pos}
    (h : posOf entries k = some p) : optAtPos entries p = (flatten entries).get? k := by
  induction entries generalizing k p with
  | nil => simp [posOf] at h
  | cons e rest ih =>
      cases e with
      | opt o =>
          cases k with
          | zero =>
              simp only [posOf, Option.some.injEq] at h
              subst h
              simp [optAtPos, flatten]
          | succ k' =>
              simp only [posOf, Option.map_eq_some'] at h
              obtain ⟨p', hp', rfl⟩ := h
              rw [optAtPos_shift, ih hp']
              simp [flatten]
      | group l ms =>
          by_cases hk : k < ms.length
          · simp only [posOf, hk, if_true, Option.some.injEq] at h
            subst h
            show (match (Entry.group l ms :: rest).get? 0 with
              | some (.group _ ms) => ms.get? k
              | _ => none) = _
            simp only [List.get?_cons_zero, flatten]
            rw [List.get?_append hk]
          · simp only [posOf, hk, if_false, Option.map_eq_some'] at h
            obtain ⟨p', hp', rfl⟩ := h
            rw [optAtPos_shift, ih hp']
            show _ = (flatten (Entry.group l ms :: rest)).get? k
            simp only [flatten]
            rw [List.get?_append_right (le_of_not_lt hk)]

theorem posOf_group_zero {l : String} {ms : List Opt} {rest : List Entry}
    (hms : ms.isEmpty = false) :
    posOf (Entry.group l ms :: rest) 0 = some (Pos.inGroup 0 0) := by
  have := length_pos_of_isEmpty_false hms
  simp [posOf, this]

/-- DOWN from the `k`-th option reaches exactly the `(k+1)`-th option (or
nothing when `k` is the last index), provided no group is empty. -/
theorem navDown_posOf {entries : List Entry} (hg : noEmptyGroups entries = true) :
    ∀ {k : Nat} {p : Pos}, posOf entries k = some p →
      navDown entries p = posOf entries (k + 1) := by
  induction entries with
  | nil => intro k p h; simp [posOf] at h
  | cons e rest ih =>
      intro k p h
      have hgr := noEmptyGroups_tail hg
      cases e with
      | opt o =>
          cases k with
          | zero =>
              simp only [posOf, Option.some.injEq] at h
              subst h
              cases rest with
              | nil => simp [navDown, posOf]
              | cons e' rest' =>
                  cases e' with
                  | opt o' => simp [navDown, posOf, shiftPos]
                  | group l' ms' =>
                      have hms' := noEmptyGroups_head_group hgr
                      have hlen := length_pos_of_isEmpty_false hms'
                      simp [navDown, posOf, hms', hlen, shiftPos]
          | succ k' =>
              simp only [posOf, Option.map_eq_some'] at h
              obtain ⟨p', hp', rfl⟩ := h
              rw [navDown_shift, ih hgr hp']
              simp [posOf]
      | group l ms =>
          have hms := noEmptyGroups_head_group hg
          by_cases hk : k < ms.length
          · simp only [posOf, hk, if_true, Option.some.injEq] at h
            subst h
            by_cases hk1 : k + 1 < ms.length
            · simp [navDown, hk1, posOf]
            · have hklen : k + 1 = ms.length := by omega
              have hnav : navDown (Entry.group l ms :: rest) (Pos.inGroup 0 k) =
                  (posOf rest 0).map shiftPos := by
                cases rest with
                | nil => simp [navDown, hk1, posOf]
                | cons e' rest' =>
                    cases e' with
                    | opt o' => simp [navDown, hk1, posOf, shiftPos]
                    | group l' ms' =>
                        have hms' := noEmptyGroups_head_group hgr
                        have hlen := length_pos_of_isEmpty_false hms'
                        simp [navDown, posOf, hk1, hms', hlen, shiftPos]
              rw [hnav]
              simp only [posOf, hk1, if_false, hklen, Nat.sub_self,
                lt_self_iff_false]
          · simp only [posOf, hk, if_false, Option.map_eq_some'] at h
            obtain ⟨p', hp', rfl⟩ := h
            rw [navDown_shift, ih hgr hp']
            have hk1 : ¬ k + 1 < ms.length := by omega
            have harith : k + 1 - ms.length = k - ms.length + 1 := by omega
            simp only [posOf, hk1, if_false, harith]

theorem posOf_succ_shape {entries : List Entry} {k : Nat} {p : Pos}
    (h : posOf entries (k + 1) = some p) :
    p ≠ Pos.top 0 ∧ p ≠ Pos.inGroup 0 0 := by
  cases entries with
  | nil => simp [posOf] at h
  | cons e rest =>
      cases e with
      | opt o =>
          simp only [posOf, Option.map_eq_some'] at h
          obtain ⟨p', _, rfl⟩ := h
          cases p' <;> simp [shiftPos]
      | group l ms =>
          by_cases hk : k + 1 < ms.length
          · simp only [posOf, hk, if_true, Option.some.injEq] at h
            subst h
            constructor <;> intro hc <;> simp at hc
          · simp only [posOf, hk, if_false, Option.map_eq_some'] at h
            obtain ⟨p', _, rfl⟩ := h
            cases p' <;> simp [shiftPos]

theorem navUp_shift (e : Entry) (rest : List Entry) {p : Pos}
    (h1 : p ≠ Pos.top 0) (h2 : p ≠ Pos.inGroup 0 0) :
    navUp (e :: rest) (shiftPos p) = (navUp rest p).map shiftPos := by
  cases p with
  | top i =>
      cases i with
      | zero => exact absurd rfl h1
      | succ i' =>
          simp only [navUp, shiftPos, List.get?_cons_succ]
          cases h : rest.get? i' with
          | none => simp
          | some e' =>
              cases e' with
              | opt o => simp [shiftPos]
              | group l ms => cases hms : ms.isEmpty <;> simp [hms, shiftPos]
  | inGroup i j =>
      cases j with
      | succ j' =>
          simp only [navUp, shiftPos, List.get?_cons_succ]
          cases h : rest.get? i with
          | none => simp
          | some e' => cases e' <;> simp [shiftPos]
      | zero =>
          cases i with
          | zero => exact absurd rfl h2
          | succ i' =>
              simp only [navUp, shiftPos, List.get?_cons_succ]
              cases h : rest.get? (i' + 1) with
              | none => simp
              | some e' =>
                  cases e' with
                  | opt o => simp
                  | group l ms =>
                      cases h' : rest.get? i' with
                      | none => simp
                      | some e'' =>
                          cases e'' with
                          | opt o => simp [shiftPos]
                          | group l' ms' =>
                              cases hms' : ms'.isEmpty <;> simp [hms', shiftPos]

/-- UP at the very first option matches nothing, provided no group is empty. -/
theorem navUp_posOf_zero {entries : List Entry} (hg : noEmptyGroups entries = true)
    {p : Pos} (h : posOf entries 0 = some p) : navUp entries p = none := by
  cases entries with
  | nil => simp [posOf] at h
  | cons e rest =>
      cases e with
      | opt o =>
          simp only [posOf, Option.some.injEq] at h
          subst h
          simp [navUp]
      | group l ms =>
          have hms := noEmptyGroups_head_group hg
          rw [posOf_group_zero hms] at h
          simp only [Option.some.injEq] at h
          subst h
          simp [navUp]

/-- UP from the `(k+1)`-th option reaches exactly the `k`-th option, provided
no group is empty. -/
theorem navUp_posOf_succ {entries : List Entry} (hg : noEmptyGroups entries = true) :
    ∀ {k : Nat} {p : Pos}, posOf entries (k + 1) = some p →
      navUp entries p = posOf entries k := by
  induction entries with
  | nil => intro k p h; simp [posOf] at h
  | cons e rest ih =>
      intro k p h
      have hgr := noEmptyGroups_tail hg
      cases e with
      | opt o =>
          simp only [posOf, Option.map_eq_some'] at h
          obtain ⟨p', hp', rfl⟩ := h
          cases k with
          | zero =>
              cases rest with
              | nil => simp [posOf] at hp'
              | cons e' rest' =>
                  cases e' with
                  | opt o' =>
                      simp only [posOf, Option.some.injEq] at hp'
                      subst hp'
                      simp [navUp, shiftPos, posOf]
                  | group l' ms' =>
                      have hms' := noEmptyGroups_head_group hgr
                      rw [posOf_group_zero hms'] at hp'
                      simp only [Option.some.injEq] at hp'
                      subst hp'
                      simp [navUp, shiftPos, posOf]
          | succ k'' =>
              obtain ⟨hs1, hs2⟩ := posOf_succ_shape hp'
              rw [navUp_shift _ _ hs1 hs2, ih hgr hp']
              simp [posOf]
      | group l ms =>
          have hms := noEmptyGroups_head_group hg
          by_cases hk : k + 1 < ms.length
          · simp only [posOf, hk, if_true, Option.some.injEq] at h
            subst h
            have hk' : k < ms.length := by omega
            simp [navUp, posOf, hk']
          · simp only [posOf, hk, if_false, Option.map_eq_some'] at h
            obtain ⟨p', hp', rfl⟩ := h
            by_cases hlen : k + 1 = ms.length
            · have hz : k + 1 - ms.length = 0 := by omega
              rw [hz] at hp'
              have hk' : k < ms.length := by omega
              have hgoal : navUp (Entry.group l ms :: rest) (shiftPos p') =
                  some (Pos.inGroup 0 k) := by
                cases rest with
                | nil => simp [posOf] at hp'
                | cons e' rest' =>
                    cases e' with
                    | opt o' =>
                        simp only [posOf, Option.some.injEq] at hp'
                        subst hp'
                        have : ms.length - 1 = k := by omega
                        simp [navUp, shiftPos, hms, this]
                    | group l' ms' =>
                        have hms' := noEmptyGroups_head_group hgr
                        rw [posOf_group_zero hms'] at hp'
                        simp only [Option.some.injEq] at hp'
                        subst hp'
                        have : ms.length - 1 = k := by omega
                        simp [navUp, shiftPos, hms, this]
              rw [hgoal]
              simp [posOf, hk']
            · have hge : ms.length < k + 1 := by omega
              have harith : k + 1 - ms.length = (k - ms.length) + 1 := by omega
              rw [harith] at hp'
              obtain ⟨hs1, hs2⟩ := posOf_succ_shape hp'
              rw [navUp_shift _ _ hs1 hs2, ih hgr hp']
              have hk' : ¬ k < ms.length := by omega
              simp [posOf, hk']

/-! ### Lemmas about the value-attribute selector lookup -/

theorem findValueIdx_of_get?_nodup {l : List Opt} (hnd : (l.map Opt.value).Nodup) :
    ∀ {k : Nat} {o : Opt}, l.get? k = some o → findValueIdx o.value l = some k := by
  induction l with
  | nil => intro k o h; simp at h
  | cons x rest ih =>
      intro k o h
      simp only [List.map_cons, List.nodup_cons] at hnd
      cases k with
      | zero =>
          simp only [List.get?_cons_zero, Option.some.injEq] at h
          subst h
          simp [findValueIdx]
      | succ k' =>
          simp only [List.get?_cons_succ] at h
          have hmem : o ∈ rest := List.get?_mem h
          have hne : ¬ x.value = o.value := by
            intro heq
            exact hnd.1 (heq ▸ List.mem_map_of_mem Opt.value hmem)
          simp [findValueIdx, hne, ih hnd.2 h]

theorem findValueIdx_first {l : List Opt} {c : Opt} (h : c ∈ l) :
    ∃ i o', findValueIdx c.value l = some i ∧ l.get? i = some o' ∧
      o'.value = c.value := by
  induction l with
  | nil => simp at h
  | cons x rest ih =>
      by_cases hx : x.value = c.value
      · exact ⟨0, x, by simp [findValueIdx, hx], by simp, hx⟩
      · have hc : c ∈ rest := by
          rcases List.mem_cons.mp h with rfl | hmem
          · exact absurd rfl hx
          · exact hmem
        obtain ⟨i, o', h1, h2, h3⟩ := ih hc
        exact ⟨i + 1, o', by simp [findValueIdx, hx, h1],
          by rw [List.get?_cons_succ]; exact h2, h3⟩

theorem findValueIdx_eq_none {l : List Opt} {v : String}
    (h : ∀ o ∈ l, o.value ≠ v) : findValueIdx v l = none := by
  induction l with
  | nil => rfl
  | cons x rest ih =>
      have hx : ¬ x.value = v := h x (by simp)
      simp [findValueIdx, hx, ih fun o ho => h o (by simp [ho])]

theorem value_inj_of_nodup {l : List Opt} (hnd : (l.map Opt.value).Nodup)
    {a b : Opt} (ha : a ∈ l) (hb : b ∈ l) (hv : a.value = b.value) : a = b := by
  induction l with
  | nil => simp at ha
  | cons x rest ih =>
      simp only [List.map_cons, List.nodup_cons] at hnd
      rcases List.mem_cons.mp ha with rfl | ha' <;>
        rcases List.mem_cons.mp hb with rfl | hb'
      · rfl
      · exact absurd (hv ▸ List.mem_map_of_mem Opt.value hb') hnd.1
      · exact absurd (hv ▸ List.mem_map_of_mem Opt.value ha') hnd.1
      · exact ih hnd.2 ha' hb'

/-- With pairwise-distinct option values, looking up a present option's own
value finds exactly that option. -/
theorem findPos_self {entries : List Entry} {o : Opt}
    (hnd : ((flatten entries).map Opt.value).Nodup) (hmem : o ∈ flatten entries) :
    ∃ p, findPosByValue entries o.value = some p ∧ optAtPos entries p = some o := by
  obtain ⟨i, o', h1, h2, h3⟩ := findValueIdx_first hmem
  have ho' : o' = o := value_inj_of_nodup hnd (List.get?_mem h2) hmem h3
  subst ho'
  obtain ⟨p, hp⟩ := posOf_isSome_of_get? h2
  refine ⟨p, ?_, ?_⟩
  · simp [findPosByValue, h1, hp]
  · rw [optAtPos_posOf hp, h2]

/-! ### Unfolding equations and field-preservation facts for the handlers -/

theorem keydown_down_eq (w : Widget) :
    keydown w .down = triggerIntermediaryChange w
      ((findPosByValue w.entries (jsValueStr w.current_value)).bind (optAtPos w.entries))
      (navTarget w .down) := rfl

theorem keydown_up_eq (w : Widget) :
    keydown w .up = triggerIntermediaryChange w
      ((findPosByValue w.entries (jsValueStr w.current_value)).bind (optAtPos w.entries))
      (navTarget w .up) := rfl

theorem navTarget_down_eq (w : Widget) :
    navTarget w .down =
      ((findPosByValue w.entries (jsValueStr w.current_value)).bind
        (navDown w.entries)).bind (optAtPos w.entries) := rfl

theorem navTarget_up_eq (w : Widget) :
    navTarget w .up =
      ((findPosByValue w.entries (jsValueStr w.current_value)).bind
        (navUp w.entries)).bind (optAtPos w.entries) := rfl

theorem triggerIntermediaryChange_none (w : Widget) (co : Option Opt) :
    triggerIntermediaryChange w co none = w := rfl

/-- Observable effect of an effective intermediary change: candidate stored,
display and `current_value` switched to the new option, `show`, the native
selection and the container untouched; the anchor data item is captured only
if absent. -/
theorem triggerIntermediaryChange_some (w : Widget) (co : Option Opt) (no : Opt) :
    (triggerIntermediaryChange w co (some no)).candidateData = some no ∧
    (triggerIntermediaryChange w co (some no)).displayText = no.text ∧
    (triggerIntermediaryChange w co (some no)).current_value = some no.value ∧
    (triggerIntermediaryChange w co (some no)).showClass = w.showClass ∧
    (triggerIntermediaryChange w co (some no)).nativeSelected = w.nativeSelected ∧
    (triggerIntermediaryChange w co (some no)).entries = w.entries ∧
    (triggerIntermediaryChange w co (some no)).anchorData =
      (if w.anchorData = none then some co else w.anchorData) := by
  simp only [triggerIntermediaryChange]
  by_cases h : w.anchorData = none <;> by_cases hs : w.showClass <;>
    simp [h, hs]

/-- One DOWN key press, as a state-to-state step. -/
def downStep (w : Widget) : Widget := keydown w .down

/-- One UP key press, as a state-to-state step. -/
def upStep (w : Widget) : Widget := keydown w .up

theorem keydown_down_step {entries : List Entry} (hg : noEmptyGroups entries = true)
    (hnd : ((flatten entries).map Opt.value).Nodup) {k : Nat} {o o' : Opt}
    (hk : (flatten entries).get? k = some o)
    (hk1 : (flatten entries).get? (k + 1) = some o')
    (w : Widget) (hw : w.entries = entries) (hv : w.current_value = some o.value) :
    keydown w .down = triggerIntermediaryChange w (some o) (some o') := by
  obtain ⟨p, hp⟩ := posOf_isSome_of_get? hk
  obtain ⟨q, hq⟩ := posOf_isSome_of_get? hk1
  have hfind : findPosByValue entries o.value = some p := by
    simp [findPosByValue, findValueIdx_of_get?_nodup hnd hk, hp]
  have hco : optAtPos entries p = some o := by rw [optAtPos_posOf hp, hk]
  have hnav : navDown entries p = some q := by
    rw [navDown_posOf hg hp, hq]
  have hno : optAtPos entries q = some o' := by rw [optAtPos_posOf hq, hk1]
  rw [keydown_down_eq, navTarget_down_eq, hw, hv]
  simp [jsValueStr, hfind, hco, hnav, hno]

theorem keydown_down_last {entries : List Entry} (hg : noEmptyGroups entries = true)
    (hnd : ((flatten entries).map Opt.value).Nodup) {o : Opt}
    (hlast : (flatten entries).get? ((flatten entries).length - 1) = some o)
    (w : Widget) (hw : w.entries = entries) (hv : w.current_value = some o.value) :
    keydown w .down = w := by
  obtain ⟨p, hp⟩ := posOf_isSome_of_get? hlast
  have hfind : findPosByValue entries o.value = some p := by
    simp [findPosByValue, findValueIdx_of_get?_nodup hnd hlast, hp]
  have hlen : 0 < (flatten entries).length := by
    have := (List.get?_eq_some.mp hlast).1
    omega
  have hnone : posOf entries ((flatten entries).length - 1 + 1) = none := by
    rw [posOf_eq_none_iff]
    omega
  have hnav : navDown entries p = none := by rw [navDown_posOf hg hp, hnone]
  rw [keydown_down_eq, navTarget_down_eq, hw, hv]
  simp [jsValueStr, hfind, hnav, triggerIntermediaryChange_none]

theorem keydown_up_step {entries : List Entry} (hg : noEmptyGroups entries = true)
    (hnd : ((flatten entries).map Opt.value).Nodup) {k : Nat} {o o' : Opt}
    (hk1 : (flatten entries).get? (k + 1) = some o)
    (hk : (flatten entries).get? k = some o')
    (w : Widget) (hw : w.entries = entries) (hv : w.current_value = some o.value) :
    keydown w .up = triggerIntermediaryChange w (some o) (some o') := by
  obtain ⟨p, hp⟩ := posOf_isSome_of_get? hk1
  obtain ⟨q, hq⟩ := posOf_isSome_of_get? hk
  have hfind : findPosByValue entries o.value = some p := by
    simp [findPosByValue, findValueIdx_of_get?_nodup hnd hk1, hp]
  have hco : optAtPos entries p = some o := by rw [optAtPos_posOf hp, hk1]
  have hnav : navUp entries p = some q := by
    rw [navUp_posOf_succ hg hp, hq]
  have hno : optAtPos entries q = some o' := by rw [optAtPos_posOf hq, hk]
  rw [keydown_up_eq, navTarget_up_eq, hw, hv]
  simp [jsValueStr, hfind, hco, hnav, hno]

theorem keydown_up_first {entries : List Entry} (hg : noEmptyGroups entries = true)
    (hnd : ((flatten entries).map Opt.value).Nodup) {o : Opt}
    (hfirst : (flatten entries).get? 0 = some o)
    (w : Widget) (hw : w.entries = entries) (hv : w.current_value = some o.value) :
    keydown w .up = w := by
  obtain ⟨p, hp⟩ := posOf_isSome_of_get? hfirst
  have hfind : findPosByValue entries o.value = some p := by
    simp [findPosByValue, findValueIdx_of_get?_nodup hnd hfirst, hp]
  have hnav : navUp entries p = none := navUp_posOf_zero hg hp
  rw [keydown_up_eq, navTarget_up_eq, hw, hv]
  simp [jsValueStr, hfind, hnav, triggerIntermediaryChange_none]

/-- Along a run of DOWN presses the container is unchanged and
`current_value` walks the flattened order, clamped at the last index. -/
theorem downStep_iter {entries : List Entry} (hg : noEmptyGroups entries = true)
    (hnd : ((flatten entries).map Opt.value).Nodup) {o₀ : Opt}
    (h0 : (flatten entries).get? 0 = some o₀)
    (w₀ : Widget) (hw : w₀.entries = entries)
    (hv : w₀.current_value = some o₀.value) :
    ∀ n, ∃ o, (flatten entries).get? (min n ((flatten entries).length - 1)) = some o ∧
      (downStep^[n] w₀).entries = entries ∧
      (downStep^[n] w₀).current_value = some o.value := by
  intro n
  induction n with
  | zero => exact ⟨o₀, by simpa using h0, hw, hv⟩
  | succ n ih =>
      obtain ⟨o, ho, he, hvn⟩ := ih
      have hN : 0 < (flatten entries).length := (List.get?_eq_some.mp h0).1
      by_cases hlt : n < (flatten entries).length - 1
      · have hmin : min n ((flatten entries).length - 1) = n := by omega
        rw [hmin] at ho
        have hk1 : n + 1 < (flatten entries).length := by omega
        obtain ⟨o', ho'⟩ : ∃ o', (flatten entries).get? (n + 1) = some o' := by
          cases hx : (flatten entries).get? (n + 1) with
          | none => exact absurd (List.get?_eq_none.mp hx) (by omega)
          | some o' => exact ⟨o', rfl⟩
        have hstep := keydown_down_step hg hnd ho ho' (downStep^[n] w₀) he hvn
        have hmin' : min (n + 1) ((flatten entries).length - 1) = n + 1 := by omega
        refine ⟨o', by rw [hmin']; exact ho', ?_, ?_⟩
        · rw [Function.iterate_succ_apply', downStep, hstep]
          exact ((triggerIntermediaryChange_some _ _ _).2.2.2.2.2.1).trans he
        · rw [Function.iterate_succ_apply', downStep, hstep]
          exact (triggerIntermediaryChange_some _ _ _).2.2.1
      · have hmin : min n ((flatten entries).length - 1) =
            (flatten entries).length - 1 := by omega
        rw [hmin] at ho
        have hstep := keydown_down_last hg hnd ho (downStep^[n] w₀) he hvn
        have hmin' : min (n + 1) ((flatten entries).length - 1) =
            (flatten entries).length - 1 := by omega
        rw [hmin']
        exact ⟨o, ho, by rw [Function.iterate_succ_apply', downStep, hstep]; exact he,
          by rw [Function.iterate_succ_apply', downStep, hstep]; exact hvn⟩

/-- Along a run of UP presses the container is unchanged and `current_value`
walks the flattened order backwards, clamped at the first index. -/
theorem upStep_iter {entries : List Entry} (hg : noEmptyGroups entries = true)
    (hnd : ((flatten entries).map Opt.value).Nodup) {oL : Opt}
    (hL : (flatten entries).get? ((flatten entries).length - 1) = some oL)
    (w₀ : Widget) (hw : w₀.entries = entries)
    (hv : w₀.current_value = some oL.value) :
    ∀ n, ∃ o, (flatten entries).get?
        ((flatten entries).length - 1 - min n ((flatten entries).length - 1)) = some o ∧
      (upStep^[n] w₀).entries = entries ∧
      (upStep^[n] w₀).current_value = some o.value := by
  intro n
  induction n with
  | zero => exact ⟨oL, by simpa using hL, hw, hv⟩
  | succ n ih =>
      obtain ⟨o, ho, he, hvn⟩ := ih
      have hN : 0 < (flatten entries).length := by
        have := (List.get?_eq_some.mp hL).1
        omega
      by_cases hlt : n < (flatten entries).length - 1
      · have hmin : (flatten entries).length - 1 - min n ((flatten entries).length - 1) =
            ((flatten entries).length - 1 - (n + 1)) + 1 := by omega
        rw [hmin] at ho
        have hk : (flatten entries).length - 1 - (n + 1) <
            (flatten entries).length := by omega
        obtain ⟨o', ho'⟩ : ∃ o',
            (flatten entries).get? ((flatten entries).length - 1 - (n + 1)) = some o' := by
          cases hx : (flatten entries).get? ((flatten entries).length - 1 - (n + 1)) with
          | none => exact absurd (List.get?_eq_none.mp hx) (by omega)
          | some o' => exact ⟨o', rfl⟩
        have hstep := keydown_up_step hg hnd ho ho' (upStep^[n] w₀) he hvn
        have hmin' : (flatten entries).length - 1 -
            min (n + 1) ((flatten entries).length - 1) =
            (flatten entries).length - 1 - (n + 1) := by omega
        refine ⟨o', by rw [hmin']; exact ho', ?_, ?_⟩
        · rw [Function.iterate_succ_apply', upStep, hstep]
          exact ((triggerIntermediaryChange_some _ _ _).2.2.2.2.2.1).trans he
        · rw [Function.iterate_succ_apply', upStep, hstep]
          exact (triggerIntermediaryChange_some _ _ _).2.2.1
      · have hmin : (flatten entries).length - 1 - min n ((flatten entries).length - 1) =
            0 := by omega
        rw [hmin] at ho
        have hstep := keydown_up_first hg hnd ho (upStep^[n] w₀) he hvn
        have hmin' : (flatten entries).length - 1 -
            min (n + 1) ((flatten entries).length - 1) = 0 := by omega
        rw [hmin']
        exact ⟨o, ho, by rw [Function.iterate_succ_apply', upStep, hstep]; exact he,
          by rw [Function.iterate_succ_apply', upStep, hstep]; exact hvn⟩

/-! ### Concrete option sets used by the example-based claims -/

/-- Option set of the worked example: an empty-valued placeholder, two
top-level options, a group of two options, and a trailing top-level option. -/
def exEntries : List Entry :=
  [ .opt ⟨"", ""⟩,
    .opt ⟨"3", "An Option"⟩,
    .opt ⟨"4", "Another Option"⟩,
    .group "G" [⟨"5", "Grouped A"⟩, ⟨"6", "Grouped B"⟩],
    .opt ⟨"2", "Last Option"⟩ ]

/-- Freshly initialized widget over `exEntries`, native selection on the
empty-valued first option. -/
def exWidget : Widget := mkInitialWidget exEntries (some 0)

/-- Option set with an empty optgroup between two top-level options. -/
def exEmptyGroup : List Entry :=
  [ .opt ⟨"1", "a"⟩, .group "G" [], .opt ⟨"2", "b"⟩ ]

/-- Widget over `exEmptyGroup`, committed to the first option. -/
def exEmptyGroupWidget : Widget := mkInitialWidget exEmptyGroup (some 0)

/-- Option set with two distinct options sharing the value "1". -/
def exDupValues : List Entry :=
  [ .opt ⟨"1", "a"⟩, .opt ⟨"2", "b"⟩, .opt ⟨"1", "c"⟩ ]

/-- Widget over `exDupValues`, committed to its last option. -/
def exDupValuesWidget : Widget := mkInitialWidget exDupValues (some 2)

/-! ### Claim C1 -/

/-- Claim C1, counterexample.  As stated over every extracted option set the
claim is false: (a) over `exEmptyGroup` (an empty optgroup between two
top-level options, two options in flattened order) a DOWN press from the
first option is a full no-op even though the first option is not the absolute
last, so N−1 = 1 presses do not reach the last option; (b) over
`exDupValues` (two options sharing a value) a DOWN press at the absolute
last option is not a no-op: it makes the second option the candidate. -/
theorem c1_counterexample :
    ((flatten exEmptyGroup).length = 2 ∧
      (flatten exEmptyGroup).get? 1 = some ⟨"2", "b"⟩ ∧
      exEmptyGroupWidget.current_value = some "1" ∧
      keydown exEmptyGroupWidget .down = exEmptyGroupWidget) ∧
    ((flatten exDupValues).length = 3 ∧
      (flatten exDupValues).get? 2 = some ⟨"1", "c"⟩ ∧
      exDupValuesWidget.current_value = some "1" ∧
      (keydown exDupValuesWidget .down).candidateData = some ⟨"2", "b"⟩) := by
  constructor
  · exact ⟨by decide, by decide, by decide, by decide⟩
  · exact ⟨by decide, by decide, by decide, by decide⟩

/-- Claim C1, amended: over every extracted option set in which no group is
empty and option values are pairwise distinct, (i) a DOWN press from the
`k`-th option of the flattened navigation order (crossing group boundaries)
makes the `(k+1)`-th option the candidate, (ii) DOWN at the absolute last
option is a no-op, (iii) from the first option, `n` DOWN presses land on
option `min n (N−1)` — so exactly N−1 presses reach the last of the N
options — and after N−1 presses further DOWN presses change nothing;
(iv)–(vi) UP mirrors this in reverse and is a no-op at the absolute first
option. -/
theorem c1_amended (entries : List Entry) (hg : noEmptyGroups entries = true)
    (hnd : ((flatten entries).map Opt.value).Nodup) :
    (∀ (w : Widget) (k : Nat) (o o' : Opt), w.entries = entries →
      w.current_value = some o.value →
      (flatten entries).get? k = some o →
      (flatten entries).get? (k + 1) = some o' →
      (keydown w .down).candidateData = some o' ∧
      (keydown w .down).current_value = some o'.value ∧
      (keydown w .down).displayText = o'.text) ∧
    (∀ (w : Widget) (o : Opt), w.entries = entries →
      w.current_value = some o.value →
      (flatten entries).get? ((flatten entries).length - 1) = some o →
      keydown w .down = w) ∧
    (∀ (w₀ : Widget) (o₀ : Opt), w₀.entries = entries →
      w₀.current_value = some o₀.value → (flatten entries).get? 0 = some o₀ →
      (∀ n o, (flatten entries).get? (min n ((flatten entries).length - 1)) = some o →
        (downStep^[n] w₀).current_value = some o.value) ∧
      (∀ m, downStep^[(flatten entries).length - 1 + m] w₀ =
        downStep^[(flatten entries).length - 1] w₀)) ∧
    (∀ (w : Widget) (k : Nat) (o o' : Opt), w.entries = entries →
      w.current_value = some o.value →
      (flatten entries).get? (k + 1) = some o →
      (flatten entries).get? k = some o' →
      (keydown w .up).candidateData = some o' ∧
      (keydown w .up).current_value = some o'.value ∧
      (keydown w .up).displayText = o'.text) ∧
    (∀ (w : Widget) (o : Opt), w.entries = entries →
      w.current_value = some o.value →
      (flatten entries).get? 0 = some o →
      keydown w .up = w) ∧
    (∀ (w₁ : Widget) (oL : Opt), w₁.entries = entries →
      w₁.current_value = some oL.value →
      (flatten entries).get? ((flatten entries).length - 1) = some oL →
      (∀ n o, (flatten entries).get?
          ((flatten entries).length - 1 - min n ((flatten entries).length - 1)) = some o →
        (upStep^[n] w₁).current_value = some o.value) ∧
      (∀ m, upStep^[(flatten entries).length - 1 + m] w₁ =
        upStep^[(flatten entries).length - 1] w₁)) := by
  refine ⟨?_, ?_, ?_, ?_, ?_, ?_⟩
  · intro w k o o' hw hv hk hk1
    rw [keydown_down_step hg hnd hk hk1 w hw hv]
    have h := triggerIntermediaryChange_some w (some o) o'
    exact ⟨h.1, h.2.2.1, h.2.1⟩
  · intro w o hw hv hlast
    exact keydown_down_last hg hnd hlast w hw hv
  · intro w₀ o₀ hw hv h0
    constructor
    · intro n o ho
      obtain ⟨o'', ho'', _, hcv⟩ := downStep_iter hg hnd h0 w₀ hw hv n
      rw [ho''] at ho
      cases ho
      exact hcv
    · intro m
      obtain ⟨oL, hoL, heL, hcvL⟩ :=
        downStep_iter hg hnd h0 w₀ hw hv ((flatten entries).length - 1)
      rw [min_self] at hoL
      have hfix : downStep (downStep^[(flatten entries).length - 1] w₀) =
          downStep^[(flatten entries).length - 1] w₀ :=
        keydown_down_last hg hnd hoL _ heL hcvL
      induction m with
      | zero => rfl
      | succ m ihm =>
          rw [← Nat.add_assoc, Function.iterate_succ_apply', ihm]
          exact hfix
  · intro w k o o' hw hv hk1 hk
    rw [keydown_up_step hg hnd hk1 hk w hw hv]
    have h := triggerIntermediaryChange_some w (some o) o'
    exact ⟨h.1, h.2.2.1, h.2.1⟩
  · intro w o hw hv h0
    exact keydown_up_first hg hnd h0 w hw hv
  · intro w₁ oL hw hv hL
    constructor
    · intro n o ho
      obtain ⟨o'', ho'', _, hcv⟩ := upStep_iter hg hnd hL w₁ hw hv n
      rw [ho''] at ho
      cases ho
      exact hcv
    · intro m
      obtain ⟨o0, ho0, he0, hcv0⟩ :=
        upStep_iter hg hnd hL w₁ hw hv ((flatten entries).length - 1)
      rw [min_self, Nat.sub_self] at ho0
      have hfix : upStep (upStep^[(flatten entries).length - 1] w₁) =
          upStep^[(flatten entries).length - 1] w₁ :=
        keydown_up_first hg hnd ho0 _ he0 hcv0
      induction m with
      | zero => rfl
      | succ m ihm =>
          rw [← Nat.add_assoc, Function.iterate_succ_apply', ihm]
          exact hfix

/-- Claim C1, witness: the amended theorem applied over `exEntries` — one
DOWN press from the empty-valued first option makes "An Option" the
candidate. -/
theorem c1_witness :
    (keydown exWidget .down).candidateData = some ⟨"3", "An Option"⟩ ∧
    (keydown exWidget .down).current_value = some "3" ∧
    (keydown exWidget .down).displayText = "An Option" :=
  (c1_amended exEntries (by decide) (by decide)).1 exWidget 0 ⟨"", ""⟩
    ⟨"3", "An Option"⟩ (by decide) (by decide) (by decide) (by decide)

/-! ### Claim C2 -/

/-- Invariant carried along a DOWN/UP navigation run that started from the
committed option `o₀` with the list shown: the container, the `show` class
and the native selection are untouched, and the `current_option` data item is
either still absent (state untouched) or holds exactly `o₀`. -/
def NavInv (entries : List Entry) (o₀ : Opt) (ns : Option Nat) (w : Widget) : Prop :=
  w.entries = entries ∧ w.showClass = true ∧ w.nativeSelected = ns ∧
  ((w.anchorData = none ∧ w.current_value = some o₀.value ∧
    w.displayText = o₀.text) ∨ w.anchorData = some (some o₀))

theorem navInv_step {entries : List Entry} {o₀ : Opt}
    (hnd : ((flatten entries).map Opt.value).Nodup) (hmem : o₀ ∈ flatten entries)
    {ns : Option Nat} {w : Widget} (hP : NavInv entries o₀ ns w) {k : Key}
    (hk : k = Key.down ∨ k = Key.up) : NavInv entries o₀ ns (keydown w k) := by
  obtain ⟨he, hs, hn, hdisj⟩ := hP
  have heq : keydown w k = triggerIntermediaryChange w
      ((findPosByValue w.entries (jsValueStr w.current_value)).bind (optAtPos w.entries))
      (navTarget w k) := by
    rcases hk with rfl | rfl
    · exact keydown_down_eq w
    · exact keydown_up_eq w
  rw [heq]
  cases hnt : navTarget w k with
  | none => rw [triggerIntermediaryChange_none]; exact ⟨he, hs, hn, hdisj⟩
  | some no =>
      have h := triggerIntermediaryChange_some w
        ((findPosByValue w.entries (jsValueStr w.current_value)).bind (optAtPos w.entries)) no
      refine ⟨h.2.2.2.2.2.1.trans he, h.2.2.2.1.trans hs, h.2.2.2.2.1.trans hn, ?_⟩
      rcases hdisj with ⟨hanc, hv, _⟩ | hanc
      · right
        obtain ⟨p, hp, hat⟩ := findPos_self hnd hmem
        rw [h.2.2.2.2.2.2, if_pos hanc, he, hv]
        simp [jsValueStr, hp, hat]
      · right
        rw [h.2.2.2.2.2.2, if_neg (by rw [hanc]; exact Option.noConfusion), hanc]

theorem navInv_foldl {entries : List Entry} {o₀ : Opt}
    (hnd : ((flatten entries).map Opt.value).Nodup) (hmem : o₀ ∈ flatten entries)
    {ns : Option Nat} :
    ∀ (ks : List Key) (w : Widget), NavInv entries o₀ ns w →
      (∀ k ∈ ks, k = Key.down ∨ k = Key.up) →
      NavInv entries o₀ ns (ks.foldl keydown w) := by
  intro ks
  induction ks with
  | nil => intro w hP _; exact hP
  | cons k ks ih =>
      intro w hP hks
      exact ih (keydown w k) (navInv_step hnd hmem hP (hks k (by simp)))
        fun k' hk' => hks k' (by simp [hk'])

theorem escape_of_navInv {entries : List Entry} {o₀ : Opt} {ns : Option Nat}
    {w : Widget} (hP : NavInv entries o₀ ns w) :
    (keydown w .escape).displayText = o₀.text ∧
    (keydown w .escape).current_value = some o₀.value ∧
    (keydown w .escape).nativeSelected = ns ∧
    (keydown w .escape).anchorData = none ∧
    (keydown w .escape).candidateData = none ∧
    (keydown w .escape).showClass = false := by
  obtain ⟨he, hs, hn, hdisj⟩ := hP
  have heq : keydown w .escape = undoIntermediateChanges w := rfl
  rw [heq]
  rcases hdisj with ⟨hanc, hv, hd⟩ | hanc
  · simp [undoIntermediateChanges, hs, hanc, hv, hd, hn]
  · simp [undoIntermediateChanges, hs, hanc, hn]

/-- Claim C2, counterexample.  Over `exDupValues` with the list expanded and
the last option (value "1", text "c") committed, one DOWN press navigates
from the first option carrying value "1" (text "a"), capturing that option —
not the committed one — as the rollback anchor; ESCAPE then restores display
text "a", not the pre-navigation committed text "c". -/
theorem c2_counterexample :
    ({ exDupValuesWidget with showClass := true } : Widget).displayText = "c" ∧
    ({ exDupValuesWidget with showClass := true } : Widget).current_value = some "1" ∧
    (keydown (keydown { exDupValuesWidget with showClass := true } .down)
      .escape).displayText = "a" ∧
    (keydown (keydown { exDupValuesWidget with showClass := true } .down)
      .escape).displayText ≠
      ({ exDupValuesWidget with showClass := true } : Widget).displayText := by
  refine ⟨by decide, by decide, by decide, by decide⟩

/-- Claim C2, amended: over every option set with pairwise-distinct option
values and every starting committed option, ESCAPE after any sequence of
DOWN/UP candidate navigation performed while the option list is expanded
restores the committed display text and `current_value` to exactly their
values before the navigation began (the native selection is never touched),
clears both the candidate and the anchor data items, and collapses the
list. -/
theorem c2_amended (entries : List Entry) (o₀ : Opt)
    (hnd : ((flatten entries).map Opt.value).Nodup) (hmem : o₀ ∈ flatten entries)
    (w₀ : Widget) (hw : w₀.entries = entries) (hshow : w₀.showClass = true)
    (ha : w₀.anchorData = none) (hv : w₀.current_value = some o₀.value)
    (hd : w₀.displayText = o₀.text) (ks : List Key)
    (hks : ∀ k ∈ ks, k = Key.down ∨ k = Key.up) :
    (keydown (ks.foldl keydown w₀) .escape).displayText = w₀.displayText ∧
    (keydown (ks.foldl keydown w₀) .escape).current_value = w₀.current_value ∧
    (keydown (ks.foldl keydown w₀) .escape).nativeSelected = w₀.nativeSelected ∧
    (keydown (ks.foldl keydown w₀) .escape).anchorData = none ∧
    (keydown (ks.foldl keydown w₀) .escape).candidateData = none ∧
    (keydown (ks.foldl keydown w₀) .escape).showClass = false := by
  have hP : NavInv entries o₀ w₀.nativeSelected w₀ :=
    ⟨hw, hshow, rfl, Or.inl ⟨ha, hv, hd⟩⟩
  have h := escape_of_navInv (navInv_foldl hnd hmem ks w₀ hP hks)
  exact ⟨h.1.trans hd.symm, h.2.1.trans hv.symm, h.2.2.1, h.2.2.2.1,
    h.2.2.2.2.1, h.2.2.2.2.2⟩

/-- Claim C2, witness: the amended theorem over `exEntries`, with the
empty-valued first option committed, the list expanded, and the navigation
sequence DOWN, DOWN, UP. -/
theorem c2_witness :
    (keydown ([Key.down, Key.down, Key.up].foldl keydown
      { exWidget with showClass := true }) .escape).displayText =
      ({ exWidget with showClass := true } : Widget).displayText ∧
    (keydown ([Key.down, Key.down, Key.up].foldl keydown
      { exWidget with showClass := true }) .escape).current_value =
      ({ exWidget with showClass := true } : Widget).current_value ∧
    (keydown ([Key.down, Key.down, Key.up].foldl keydown
      { exWidget with showClass := true }) .escape).anchorData = none ∧
    (keydown ([Key.down, Key.down, Key.up].foldl keydown
      { exWidget with showClass := true }) .escape).showClass = false := by
  have h := c2_amended exEntries ⟨"", ""⟩ (by decide) (by decide)
    { exWidget with showClass := true } (by decide) (by decide) (by decide)
    (by decide) (by decide) [Key.down, Key.down, Key.up] (by decide)
  exact ⟨h.1, h.2.1, h.2.2.2.1, h.2.2.2.2.2⟩

/-! ### Claim C3 -/

theorem keydown_enter_eq (w : Widget) :
    keydown w .enter = match w.candidateData with
      | some no => triggerValueChange w no.value
      | none => w := rfl

theorem keydown_tab_eq_enter (w : Widget) : keydown w .tab = keydown w .enter := rfl

/-- Committing an option present in the container: the native selection moves
to the first option carrying that value, the display is synced from it by the
triggered change event, highlights and both data items are removed, and the
list is hidden. -/
theorem triggerValueChange_mem {w : Widget} {c : Opt}
    (hmem : c ∈ flatten w.entries) :
    ∃ i o', findValueIdx c.value (flatten w.entries) = some i ∧
      (flatten w.entries).get? i = some o' ∧ o'.value = c.value ∧
      triggerValueChange w c.value =
        { w with nativeSelected := some i, displayText := o'.text,
                 current_value := some c.value, highlight := none,
                 anchorData := none, candidateData := none, showClass := false } := by
  obtain ⟨i, o', h1, h2, h3⟩ := findValueIdx_first hmem
  refine ⟨i, o', h1, h2, h3, ?_⟩
  obtain ⟨es, ns, dt, cv, ad, cd, sc, hl⟩ := w
  simp only [triggerValueChange, setCurrentSelectedTextAndValue] at h1 h2 ⊢
  have h2' : (flatten es)[i]? = some o' := by
    rw [← List.get?_eq_getElem?]
    exact h2
  simp only [h1, Option.some_bind]
  simp [h2', h3]

/-- Claim C3: pressing ENTER or TAB while a candidate is stored commits that
candidate's value to the native control (the native selection moves to the
first option with that value and the triggered change event syncs the display
from it), removes every option highlight and both stored data items, and
hides the option list; when no candidate is stored, ENTER and TAB leave the
state unchanged. -/
theorem c3_enter_tab_commit :
    (∀ (w : Widget) (c : Opt), w.candidateData = some c → c ∈ flatten w.entries →
      ∃ i o', findValueIdx c.value (flatten w.entries) = some i ∧
        (flatten w.entries).get? i = some o' ∧ o'.value = c.value ∧
        keydown w .enter =
          { w with nativeSelected := some i, displayText := o'.text,
                   current_value := some c.value, highlight := none,
                   anchorData := none, candidateData := none, showClass := false } ∧
        keydown w .tab = keydown w .enter) ∧
    (∀ w : Widget, w.candidateData = none →
      keydown w .enter = w ∧ keydown w .tab = w) := by
  constructor
  · intro w c hc hmem
    obtain ⟨i, o', h1, h2, h3, h4⟩ := triggerValueChange_mem hmem
    refine ⟨i, o', h1, h2, h3, ?_, keydown_tab_eq_enter w⟩
    rw [keydown_enter_eq, hc]
    exact h4
  · intro w hc
    constructor
    · rw [keydown_enter_eq, hc]
    · rw [keydown_tab_eq_enter, keydown_enter_eq, hc]

/-- Widget over `exEntries` with the list expanded and "Grouped A" stored as
the navigation candidate (anchored at the empty-valued first option). -/
def exCandidateWidget : Widget :=
  { entries := exEntries
    nativeSelected := some 0
    displayText := "Grouped A"
    current_value := some "5"
    anchorData := some (some ⟨"", ""⟩)
    candidateData := some ⟨"5", "Grouped A"⟩
    showClass := true
    highlight := some "5" }

/-- Claim C3, witness: ENTER on `exCandidateWidget` commits value "5". -/
theorem c3_witness :
    ∃ i o', findValueIdx "5" (flatten exCandidateWidget.entries) = some i ∧
      (flatten exCandidateWidget.entries).get? i = some o' ∧ o'.value = "5" ∧
      keydown exCandidateWidget .enter =
        { exCandidateWidget with
                 nativeSelected := some i, displayText := o'.text,
                 current_value := some "5", highlight := none, anchorData := none,
                 candidateData := none, showClass := false } ∧
      keydown exCandidateWidget .tab = keydown exCandidateWidget .enter :=
  c3_enter_tab_commit.1 exCandidateWidget ⟨"5", "Grouped A"⟩ (by decide) (by decide)

/-! ### Claim C4 -/

/-- Claim C4, counterexample.  From the freshly initialized closed widget
over `exEntries` (committed value ""), the first DOWN press does not open the
list (no key press ever toggles the `show` class), and three DOWN presses
yield candidate "Grouped A" (value "5"), not "Another Option" (value "4"):
the code consumes no press for opening. -/
theorem c4_counterexample :
    (stepEv exWidget (Ev.key Key.down)).showClass = false ∧
    (runEvents exWidget [Ev.key Key.down, Ev.key Key.down,
      Ev.key Key.down]).candidateData = some ⟨"5", "Grouped A"⟩ ∧
    (runEvents exWidget [Ev.key Key.down, Ev.key Key.down,
      Ev.key Key.down]).candidateData ≠ some ⟨"4", "Another Option"⟩ := by
  refine ⟨by decide, by decide, by decide⟩

/-- Claim C4, amended: over `exEntries` with starting committed value "",
DOWN presses never open the list (it opens only on click); two DOWN presses
from the closed state yield candidate "4:Another Option", a third press
crosses the group boundary and yields candidate "5:Grouped A", and ENTER then
commits value "5" with display text "Grouped A". -/
theorem c4_amended :
    exWidget.current_value = some "" ∧ exWidget.showClass = false ∧
    (runEvents exWidget [Ev.key Key.down, Ev.key Key.down]).candidateData =
      some ⟨"4", "Another Option"⟩ ∧
    (runEvents exWidget [Ev.key Key.down, Ev.key Key.down]).showClass = false ∧
    (runEvents exWidget [Ev.key Key.down, Ev.key Key.down,
      Ev.key Key.down]).candidateData = some ⟨"5", "Grouped A"⟩ ∧
    (runEvents exWidget [Ev.key Key.down, Ev.key Key.down,
      Ev.key Key.down]).showClass = false ∧
    (runEvents exWidget [Ev.key Key.down, Ev.key Key.down, Ev.key Key.down,
      Ev.key Key.enter]).current_value = some "5" ∧
    (runEvents exWidget [Ev.key Key.down, Ev.key Key.down, Ev.key Key.down,
      Ev.key Key.enter]).displayText = "Grouped A" ∧
    (runEvents exWidget [Ev.key Key.down, Ev.key Key.down, Ev.key Key.down,
      Ev.key Key.enter]).nativeSelected = some 3 ∧
    (flatten exEntries).get? 3 = some ⟨"5", "Grouped A"⟩ := by
  refine ⟨by decide, by decide, by decide, by decide, by decide, by decide,
    by decide, by decide, by decide, by decide⟩

/-! ### Claim C5 -/

theorem keydown_pageDown_eq (w : Widget) :
    keydown w .pageDown = triggerIntermediaryChange w
      ((findPosByValue w.entries (jsValueStr w.current_value)).bind (optAtPos w.entries))
      (navTarget w .pageDown) := rfl

theorem keydown_pageUp_eq (w : Widget) :
    keydown w .pageUp = triggerIntermediaryChange w
      ((findPosByValue w.entries (jsValueStr w.current_value)).bind (optAtPos w.entries))
      (navTarget w .pageUp) := rfl

theorem triggerIntermediaryChange_closed {w : Widget} (co : Option Opt) (no : Opt)
    (hs : w.showClass = false) :
    (triggerIntermediaryChange w co (some no)).highlight = w.highlight := by
  simp only [triggerIntermediaryChange]
  by_cases h : w.anchorData = none <;> simp [h, hs]

/-- Claim C5, counterexample.  On the freshly initialized closed widget over
`exEntries`, a single DOWN keydown creates a candidate even though the list
is closed: candidate data is present while the `show` class is absent. -/
theorem c5_counterexample :
    exWidget.showClass = false ∧ exWidget.candidateData = none ∧
    (keydown exWidget .down).candidateData = some ⟨"3", "An Option"⟩ ∧
    (keydown exWidget .down).showClass = false := by
  refine ⟨by decide, by decide, by decide, by decide⟩

/-- Claim C5, amended: keyboard navigation creates and changes the candidate
regardless of whether the option list is expanded — a navigation keydown
whose computed new option is non-empty stores it as the candidate even while
the list is closed, and the list stays closed; only the row highlight is
gated on the expanded list (it is untouched while the list is closed). -/
theorem c5_amended (w : Widget) (hs : w.showClass = false) (k : Key)
    (hk : k = Key.down ∨ k = Key.up ∨ k = Key.pageDown ∨ k = Key.pageUp)
    (no : Opt) (hno : navTarget w k = some no) :
    (keydown w k).candidateData = some no ∧
    (keydown w k).showClass = false ∧
    (keydown w k).highlight = w.highlight := by
  have heq : keydown w k = triggerIntermediaryChange w
      ((findPosByValue w.entries (jsValueStr w.current_value)).bind (optAtPos w.entries))
      (navTarget w k) := by
    rcases hk with rfl | rfl | rfl | rfl
    · exact keydown_down_eq w
    · exact keydown_up_eq w
    · exact keydown_pageDown_eq w
    · exact keydown_pageUp_eq w
  rw [heq, hno]
  have h := triggerIntermediaryChange_some w
    ((findPosByValue w.entries (jsValueStr w.current_value)).bind (optAtPos w.entries)) no
  exact ⟨h.1, h.2.2.2.1.trans hs, triggerIntermediaryChange_closed _ _ hs⟩

/-- Claim C5, witness: the amended theorem at the closed `exWidget` with a
DOWN press. -/
theorem c5_witness :
    (keydown exWidget .down).candidateData = some ⟨"3", "An Option"⟩ ∧
    (keydown exWidget .down).showClass = false ∧
    (keydown exWidget .down).highlight = exWidget.highlight :=
  c5_amended exWidget (by decide) Key.down (Or.inl rfl) ⟨"3", "An Option"⟩
    (by decide)

/-! ### Claim C6 -/

/-- Claim C6, counterexample.  Open the list by click over `exEntries`, press
DOWN twice (candidate "4:Another Option"), then click outside the option
rows: the list closes and the commit is skipped, but the candidate and anchor
data items are still stored — contradicting that no candidate or anchor
state remains. -/
theorem c6_counterexample :
    (runEvents exWidget [Ev.clickOutsideOptions, Ev.key Key.down,
      Ev.key Key.down]).showClass = true ∧
    (runEvents exWidget [Ev.clickOutsideOptions, Ev.key Key.down,
      Ev.key Key.down]).candidateData = some ⟨"4", "Another Option"⟩ ∧
    (runEvents exWidget [Ev.clickOutsideOptions, Ev.key Key.down, Ev.key Key.down,
      Ev.clickOutsideOptions]).showClass = false ∧
    (runEvents exWidget [Ev.clickOutsideOptions, Ev.key Key.down, Ev.key Key.down,
      Ev.clickOutsideOptions]).candidateData = some ⟨"4", "Another Option"⟩ ∧
    (runEvents exWidget [Ev.clickOutsideOptions, Ev.key Key.down, Ev.key Key.down,
      Ev.clickOutsideOptions]).anchorData = some (some ⟨"", ""⟩) := by
  refine ⟨by decide, by decide, by decide, by decide, by decide⟩

/-- Claim C6, amended: in the Open-Candidate state a click outside the option
rows only toggles the `show` class off — the widget transitions to Closed
with the commit skipped and the native control's value unchanged, but the
stored candidate and anchor data items (and the row highlight) remain in
place. -/
theorem c6_amended (w : Widget) (hs : w.showClass = true) :
    stepEv w .clickOutsideOptions = { w with showClass := false } := by
  simp [stepEv, hs]

/-- Claim C6, witness: the amended theorem at `exCandidateWidget`. -/
theorem c6_witness :
    stepEv exCandidateWidget .clickOutsideOptions =
      { exCandidateWidget with showClass := false } :=
  c6_amended exCandidateWidget (by decide)

/-! ### Claim C10 -/

/-- Claim C10: after keyboard navigation has produced a candidate, a click
outside the option rows hides the option list but leaves the candidate and
anchor data attached, so an ENTER keydown delivered afterwards — while the
list is closed — still commits the previously highlighted candidate's value
"4" to the native control and syncs the display from the triggered change
event. -/
theorem c10_commit_after_outside_click :
    (runEvents exWidget [Ev.clickOutsideOptions, Ev.key Key.down, Ev.key Key.down,
      Ev.clickOutsideOptions]).showClass = false ∧
    (runEvents exWidget [Ev.clickOutsideOptions, Ev.key Key.down, Ev.key Key.down,
      Ev.clickOutsideOptions]).candidateData = some ⟨"4", "Another Option"⟩ ∧
    (runEvents exWidget [Ev.clickOutsideOptions, Ev.key Key.down, Ev.key Key.down,
      Ev.clickOutsideOptions, Ev.key Key.enter]).nativeSelected = some 2 ∧
    (flatten exEntries).get? 2 = some ⟨"4", "Another Option"⟩ ∧
    (runEvents exWidget [Ev.clickOutsideOptions, Ev.key Key.down, Ev.key Key.down,
      Ev.clickOutsideOptions, Ev.key Key.enter]).current_value = some "4" ∧
    (runEvents exWidget [Ev.clickOutsideOptions, Ev.key Key.down, Ev.key Key.down,
      Ev.clickOutsideOptions, Ev.key Key.enter]).displayText = "Another Option" ∧
    (runEvents exWidget [Ev.clickOutsideOptions, Ev.key Key.down, Ev.key Key.down,
      Ev.clickOutsideOptions, Ev.key Key.enter]).candidateData = none := by
  refine ⟨by decide, by decide, by decide, by decide, by decide, by decide,
    by decide⟩

/-! ### Claim C7 -/

/-- Modelled from the spec: the SelectionState record of section 3 of the
specification (committed value/text, optional candidate and anchor, list
expansion flag), which has no direct counterpart under src/ — the code keeps
these as `current_value`, display html and jQuery data items. -/
structure SpecSelectionState where
  committedValue : String
  committedText : String
  candidateOption : Option Opt
  anchorOption : Option Opt
  listExpanded : Bool
deriving DecidableEq

/-- Result of the specified `setCommitted`, which can fail. -/
inductive SpecCommitResult where
  | invalidOptionError : SpecCommitResult
  | ok : SpecSelectionState → SpecCommitResult
deriving DecidableEq

/-- Modelled from the spec: `setCommitted(value)` "fails with
`InvalidOptionError` if `value` does not match any known Option; otherwise
updates `committedValue`/`committedText`, clears
`candidateOption`/`anchorOption`, sets `listExpanded = false`". -/
def setCommitted_spec (opts : List Opt) (v : String) : SpecCommitResult :=
  match opts.find? (fun o => o.value == v) with
  | none => .invalidOptionError
  | some o =>
      .ok { committedValue := o.value, committedText := o.text,
            candidateOption := none, anchorOption := none, listExpanded := false }

/-- Claim C7, counterexample.  Committing the value "9", which matches no
option of `exEntries`, must fail with `InvalidOptionError` per the claim —
and indeed the spec-modelled operation fails — but the code's
`triggerValueChange` does not fail: it runs to completion, deselecting the
native control, leaving the display text and `current_value` untouched,
clearing both data items and hiding the list. -/
theorem c7_counterexample :
    setCommitted_spec (flatten exEntries) "9" = SpecCommitResult.invalidOptionError ∧
    triggerValueChange exCandidateWidget "9" =
      { exCandidateWidget with
               nativeSelected := none, highlight := none, anchorData := none,
               candidateData := none, showClass := false } ∧
    (triggerValueChange exCandidateWidget "9").current_value =
      exCandidateWidget.current_value ∧
    (triggerValueChange exCandidateWidget "9").displayText =
      exCandidateWidget.displayText := by
  refine ⟨by decide, by decide, by decide, by decide⟩

/-- Claim C7, amended: committing a value that matches no known option does
not fail — `triggerValueChange` deselects the native control (selection
`none`), leaves the display text and `current_value` unchanged, clears the
candidate and anchor data items and the highlights, and hides the list; a
commit of a value carried by some option updates the native selection to the
first option with that value, syncs display text and `current_value` from
it, clears candidate/anchor data and highlights, and hides the list. -/
theorem c7_amended :
    (∀ (w : Widget) (v : String), (∀ o ∈ flatten w.entries, o.value ≠ v) →
      triggerValueChange w v =
        { w with nativeSelected := none, highlight := none, anchorData := none,
                 candidateData := none, showClass := false }) ∧
    (∀ (w : Widget) (c : Opt), c ∈ flatten w.entries →
      ∃ i o', findValueIdx c.value (flatten w.entries) = some i ∧
        (flatten w.entries).get? i = some o' ∧ o'.value = c.value ∧
        triggerValueChange w c.value =
          { w with nativeSelected := some i, displayText := o'.text,
                   current_value := some c.value, highlight := none,
                   anchorData := none, candidateData := none,
                   showClass := false }) := by
  constructor
  · intro w v hnone
    have hfind : findValueIdx v (flatten w.entries) = none :=
      findValueIdx_eq_none hnone
    obtain ⟨es, ns, dt, cv, ad, cd, sc, hl⟩ := w
    simp only [triggerValueChange, setCurrentSelectedTextAndValue] at hfind ⊢
    simp [hfind]
  · intro w c hmem
    exact triggerValueChange_mem hmem

/-- Claim C7, witness: both halves of the amended theorem at concrete
inputs — an unmatched value "9" and the present option "5:Grouped A". -/
theorem c7_witness :
    (triggerValueChange exWidget "9" =
      { exWidget with nativeSelected := none, highlight := none,
                      anchorData := none, candidateData := none,
                      showClass := false }) ∧
    ∃ i o', findValueIdx "5" (flatten exWidget.entries) = some i ∧
      (flatten exWidget.entries).get? i = some o' ∧ o'.value = "5" ∧
      triggerValueChange exWidget "5" =
        { exWidget with
                 nativeSelected := some i, displayText := o'.text,
                 current_value := some "5", highlight := none, anchorData := none,
                 candidateData := none, showClass := false } :=
  ⟨c7_amended.1 exWidget "9" (by decide),
    c7_amended.2 exWidget ⟨"5", "Grouped A"⟩ (by decide)⟩

/-! ### Claim C8 -/

/-- User-supplied options map for a `styledSelectBox(...)` call; every field
is optional and absent fields fall back to `default_options` under
`$.extend`. -/
structure UserOptions where
  image_base : Option String
  classes : Option (List String)
  widget_height : Option Int
  include_separator_border : Option Bool
  z_index : Option Int
  full_replacement : Option Bool
  multiline : Option Bool
deriving DecidableEq

/-- Effective options after `$.extend(default_options, options_or_method)`:
`image_base` defaults to null, `classes` to `[]`,
`include_separator_border` to true, `full_replacement` and `multiline` to
false, `widget_height` and `z_index` to null. -/
structure EffectiveOptions where
  image_base : Option String
  classes : List String
  widget_height : Option Int
  include_separator_border : Bool
  z_index : Option Int
  full_replacement : Bool
  multiline : Bool
deriving DecidableEq

def extendDefaults (u : UserOptions) : EffectiveOptions :=
  { image_base := u.image_base
    classes := u.classes.getD []
    widget_height := u.widget_height
    include_separator_border := u.include_separator_border.getD true
    z_index := u.z_index
    full_replacement := u.full_replacement.getD false
    multiline := u.multiline.getD false }

/-- One native select box handed to the plugin: its extracted children, its
current selection, and its `data-styled-select-type` attribute. -/
structure SelectBoxInit where
  entries : List Entry
  selectedIdx : Option Nat
  attrStyledSelectType : Option String
deriving DecidableEq

/-- Product of one `initStyledSelect` run: the created widget state and the
namespaced jQuery listeners attached to the source control and the
replacement container. -/
structure InitializedBox where
  widget : Widget
  handlers : List String
deriving DecidableEq

def initStyledSelectModel (eo : EffectiveOptions) (b : SelectBoxInit) :
    InitializedBox :=
  let full := eo.full_replacement || b.attrStyledSelectType == some "full"
  { widget := mkInitialWidget b.entries b.selectedIdx
    handlers := ["change.styledSelect", "keyup.styledSelect"] ++
      (if full then ["click.styledSelect", "keydown.styledSelect",
        "focusout.styledSelect"] else []) }

/-- The `$.fn.styledSelectBox(options)` entry point for the initialization
path: extends the defaults, then checks the required `image_base` option and
throws before touching any select box when it is absent; otherwise
initializes every matched select box. -/
def styledSelectBoxCall (u : UserOptions) (boxes : List SelectBoxInit) :
    Except String (List InitializedBox) :=
  let options := extendDefaults u
  if options.image_base = none then
    Except.error "StyledSelectBox widget: no \"image_base\" option specified."
  else
    Except.ok (boxes.map (initStyledSelectModel options))

/-- Claim C8: when the required `image_base` option is absent the call fails
with the user-surfaced thrown message, and no replacement surface or
listener set is produced for any select box — there is no partial widget
state because the throw happens before the per-box initialization loop. -/
theorem c8_missing_image_base (u : UserOptions) (hu : u.image_base = none)
    (boxes : List SelectBoxInit) :
    styledSelectBoxCall u boxes =
      Except.error "StyledSelectBox widget: no \"image_base\" option specified." ∧
    ∀ out : List InitializedBox, styledSelectBoxCall u boxes ≠ Except.ok out := by
  have himg : (extendDefaults u).image_base = none := hu
  constructor
  · simp [styledSelectBoxCall, himg]
  · intro out
    simp [styledSelectBoxCall, himg]

/-- Claim C8, witness: a call with every option left out, over one select
box, fails with the thrown message. -/
theorem c8_witness :
    styledSelectBoxCall
      ⟨none, none, none, none, none, none, none⟩
      [⟨exEntries, some 0, some "full"⟩] =
      Except.error "StyledSelectBox widget: no \"image_base\" option specified." ∧
    ∀ out : List InitializedBox,
      styledSelectBoxCall ⟨none, none, none, none, none, none, none⟩
        [⟨exEntries, some 0, some "full"⟩] ≠ Except.ok out :=
  c8_missing_image_base ⟨none, none, none, none, none, none, none⟩ rfl
    [⟨exEntries, some 0, some "full"⟩]

/-! ### Claim C9 -/

/-- One styled-select widget as seen by the page-wide resize logic: whether
it is a full-replacement instance, and the max-height currently set on its
options container. -/
structure PageWidget where
  fullReplacement : Bool
  optionsMaxHeight : Option ℚ
deriving DecidableEq

/-- Page-wide state: all styled-select widgets plus the window's registered
`resize` handler list (event namespaces, in registration order). -/
structure PageState where
  widgets : List PageWidget
  resizeHandlers : List String
deriving DecidableEq

/-- The `resizeOptions` handler: computes half of the viewport inner height
and sets it as max-height on the options container of every
full-replacement styled select on the page. -/
def resizeOptions (viewport_height : ℚ) (p : PageState) : PageState :=
  { p with widgets := p.widgets.map fun w =>
      if w.fullReplacement then { w with optionsMaxHeight := some (viewport_height / 2) }
      else w }

/-- The dedup check in `initStyledSelect`: the window resize handler is added
unless the already-registered events contain a `resize` entry whose first
handler carries the `styledSelect` namespace (`definition[0].namespace`). -/
def addResizeCheck (hs : List String) : Bool :=
  match hs.head? with
  | none => true
  | some ns => ns != "styledSelect"

/-- Window-level effect of initializing one full-replacement instance: the
new widget is added, and if the dedup check passes, the shared
`resize.styledSelect` handler is registered and `resizeOptions` is run once
with the current viewport height. -/
def initFullReplacement (viewport_height : ℚ) (p : PageState) : PageState :=
  let p1 : PageState :=
    { p with widgets := p.widgets ++ [{ fullReplacement := true, optionsMaxHeight := none }] }
  if addResizeCheck p1.resizeHandlers then
    resizeOptions viewport_height
      { p1 with resizeHandlers := p1.resizeHandlers ++ ["styledSelect"] }
  else p1

theorem initFullReplacement_handlers_empty (h : ℚ) (p : PageState)
    (hp : p.resizeHandlers = []) :
    (initFullReplacement h p).resizeHandlers = ["styledSelect"] := by
  simp [initFullReplacement, addResizeCheck, resizeOptions, hp]

theorem initFullReplacement_handlers_one (h : ℚ) (p : PageState)
    (hp : p.resizeHandlers = ["styledSelect"]) :
    (initFullReplacement h p).resizeHandlers = ["styledSelect"] := by
  simp [initFullReplacement, addResizeCheck, resizeOptions, hp]

/-- Claim C9: starting from a window with no registered resize handlers,
initializing any number of full-replacement instances registers the shared
`styledSelect` resize handler at most once (for one or more instances,
exactly once); and each run of the shared handler sets the option-list
max-height of every full-replacement instance on the page to exactly half
the new viewport inner height. -/
theorem c9_shared_resize_handler (h : ℚ) (p₀ : PageState)
    (hp : p₀.resizeHandlers = []) :
    (∀ n : Nat,
      ((initFullReplacement h)^[n] p₀).resizeHandlers.count "styledSelect" ≤ 1) ∧
    (∀ (h' : ℚ) (p : PageState) (w : PageWidget),
      w ∈ (resizeOptions h' p).widgets → w.fullReplacement = true →
      w.optionsMaxHeight = some (h' / 2)) := by
  constructor
  · have key : ∀ n : Nat, ((initFullReplacement h)^[n] p₀).resizeHandlers = [] ∨
        ((initFullReplacement h)^[n] p₀).resizeHandlers = ["styledSelect"] := by
      intro n
      induction n with
      | zero => exact Or.inl hp
      | succ n ih =>
          right
          rw [Function.iterate_succ_apply']
          rcases ih with h1 | h1
          · exact initFullReplacement_handlers_empty h _ h1
          · exact initFullReplacement_handlers_one h _ h1
    intro n
    rcases key n with h1 | h1 <;> simp [h1]
  · intro h' p w hw hfull
    simp only [resizeOptions, List.mem_map] at hw
    obtain ⟨w', _, rfl⟩ := hw
    by_cases hf : w'.fullReplacement
    · simp [hf]
    · rw [if_neg hf] at hfull ⊢
      exact absurd hfull hf

/-- Claim C9, witness: three consecutive full-replacement initializations
from a clean window leave exactly one `styledSelect` resize handler, and a
resize to viewport height 600 sets max-height 300 on a full-replacement
instance. -/
theorem c9_witness :
    ((initFullReplacement 600)^[3]
      ({ widgets := [], resizeHandlers := [] } : PageState)).resizeHandlers.count
        "styledSelect" ≤ 1 ∧
    ∀ w : PageWidget,
      w ∈ (resizeOptions 600 { widgets := [⟨true, none⟩], resizeHandlers :=
        ["styledSelect"] }).widgets → w.fullReplacement = true →
      w.optionsMaxHeight = some (600 / 2) :=
  ⟨(c9_shared_resize_handler 600 { widgets := [], resizeHandlers := [] } rfl).1 3,
    fun w hw hf =>
      (c9_shared_resize_handler 600 { widgets := [], resizeHandlers := [] } rfl).2
        600 _ w hw hf⟩

end StyledSelect
